import Mathlib

/-
  Verification of the spooty library-aggregation pipeline
  (src/spooty/utils/spotify_helpers.py) against its specification.

  The Python source is shallowly embedded: pandas DataFrames become lists of
  structures, the remote Spotify API becomes explicit backend records of
  functions, floats become rationals, and exceptions become Option/Except or
  explicit success flags.  Concurrency (the artist thread pool collecting
  chunk results with as_completed) is modelled by an explicit completion
  order, a permutation of the submitted chunk indices.
-/

namespace Spooty

/-! ## Paginator (the while-loop over pages in get_playlists / get_liked_songs) -/

/-- Model of the cursor-following fetch loop: the remote listing is a list of
pages; the loop consumes the first page, then follows the next-page cursor
until none remains, accumulating items in order. -/
def collectPages {α : Type} : List (List α) → List α
  | [] => []
  | page :: rest => page ++ collectPages rest

/-! ## Playlists (get_playlists) -/

/-- One playlist record as used by get_playlists: the columns the filters
touch (owner.display_name, collaborative, name) plus the id consumed by
pull_tracks. -/
structure PlaylistObj where
  id : String
  name : String
  owner_display_name : String
  collaborative : Bool
  deriving DecidableEq, Repr

/-- The three filters of get_playlists, applied conjunctively; a filter that
is not given (None in Python) passes everything. -/
def playlistPasses (userFilter : Option String) (collabFilter : Option Bool)
    (namePfx : Option String) (p : PlaylistObj) : Bool :=
  (match userFilter with
   | none => true
   | some u => p.owner_display_name == u)
  && (match collabFilter with
      | none => true
      | some c => p.collaborative == c)
  && (match namePfx with
      | none => true
      | some s => p.name.startsWith s)

/-! ## Raw playlist items and the track normalizer (pull_tracks inner loop) -/

/-- An element of the raw "artists" list: it may fail `isinstance(x, dict)`,
and its "id"/"name" keys may be absent (`none`). -/
structure RawArtistObj where
  is_dict : Bool
  aid : Option String
  aname : Option String
  deriving DecidableEq, Repr

/-- The value found under the "artists" key of a raw track dict.
`missing` covers both an absent key and a falsy value (the Python check
`not track.get("artists")`); `notList` is a truthy non-list value; `alist`
is an actual list (possibly empty). -/
inductive ArtistsField where
  | missing : ArtistsField
  | notList : ArtistsField
  | alist : List RawArtistObj → ArtistsField
  deriving DecidableEq, Repr

/-- A raw track dict: value of "type" if present, the "artists" field, and
the "id"/"name" keys (`none` = key absent). -/
structure RawTrackObj where
  ty : Option String
  artists : ArtistsField
  tid : Option String
  tname : Option String
  deriving DecidableEq, Repr

/-- One raw playlist item. `notDict` models an item that is falsy or not a
dict; `noTrack` an item whose "track" entry is absent, falsy or not a dict;
`item` carries the track dict. -/
inductive RawItem where
  | notDict : RawItem
  | noTrack : RawItem
  | item : RawTrackObj → RawItem
  deriving DecidableEq, Repr

/-- The fields pull_tracks extracts from a valid track (before tagging with
the playlist id): first artist's name and id, track name and id. -/
structure TrackRow0 where
  artist_name : String
  artist_id : String
  track_name : String
  track_id : String
  deriving DecidableEq, Repr

/-- A track row tagged with its playlist id, as appended to the tracks
DataFrame. -/
structure TrackRow where
  artist_name : String
  artist_id : String
  track_name : String
  track_id : String
  playlist_id : String
  deriving DecidableEq, Repr

/-- The per-item validation of pull_tracks, in source order: drop items that
are not dicts, items without a track dict, episode-typed tracks, tracks
without a non-empty artist list, tracks missing the "id" or "name" key, and
tracks whose first artist is not a dict with "id" and "name" keys; otherwise
produce the extracted row. -/
def normalizeItem : RawItem → Option TrackRow0
  | .notDict => none
  | .noTrack => none
  | .item t =>
    if t.ty == some "episode" then none
    else
      match t.artists with
      | .missing => none
      | .notList => none
      | .alist [] => none
      | .alist (a :: _) =>
        match t.tid, t.tname with
        | some tid, some tname =>
          if a.is_dict then
            match a.aid, a.aname with
            | some aid, some aname =>
              some { artist_name := aname, artist_id := aid,
                     track_name := tname, track_id := tid }
            | _, _ => none
          else none
        | _, _ => none

/-- Tag a validated row with the playlist it came from. -/
def tagRow (pid : String) (r : TrackRow0) : TrackRow :=
  { artist_name := r.artist_name, artist_id := r.artist_id,
    track_name := r.track_name, track_id := r.track_id, playlist_id := pid }

/-- Result of pull_tracks: the concatenated valid rows and the
(name, id, reason) triples of skipped playlists. -/
structure PullTracksResult where
  rows : List TrackRow
  skipped : List (String × String × String)
  deriving DecidableEq, Repr

/-- The playlist loop of pull_tracks: for each (id, name) pair, fetch the
playlist's items, keep the valid tracks; a playlist with no valid music
track contributes zero rows and is recorded as skipped with the reason
string used by the source. -/
def pullTracks (fetch : String → List RawItem) :
    List (String × String) → PullTracksResult
  | [] => { rows := [], skipped := [] }
  | (pid, pname) :: rest =>
    let valid := (fetch pid).filterMap normalizeItem
    let r := pullTracks fetch rest
    if valid.isEmpty then
      { rows := r.rows,
        skipped := (pname, pid, "No valid music tracks") :: r.skipped }
    else
      { rows := valid.map (tagRow pid) ++ r.rows, skipped := r.skipped }

/-! ## Batch fetcher (pull_artist_and_genre and _process_artist_batch) -/

/-- De-duplication preserving the order of first occurrence, the behaviour
of pandas Series.unique on the artist_id column. -/
def uniqueFirst : List String → List String
  | [] => []
  | x :: xs => x :: (uniqueFirst xs).filter (fun y => y ≠ x)

/-- Recursion core of chunksOf.  The first argument is fuel bounding the
list length; it only serves to make the recursion structural (and hence
kernel-computable) and never runs out when started at the list's length. -/
def chunksGo : Nat → Nat → List String → List (List String)
  | _, _, [] => []
  | _, 0, _ :: _ => []
  | 0, _ + 1, _ :: _ => []
  | fuel + 1, m + 1, x :: xs =>
    (x :: xs.take m) :: chunksGo fuel (m + 1) (xs.drop m)

/-- Fixed-size chunking, the slicing loop `ids[i:i+BATCH_SIZE]` over
`range(0, len(ids), BATCH_SIZE)`.  A chunk size of 0 never occurs in the
source (sizes are 50 and 100) and produces no chunks. -/
def chunksOf (n : Nat) (l : List String) : List (List String) :=
  chunksGo l.length n l

/-- A raw artist record from a get-artists-by-id response: `invalid` models
a falsy or non-dict element; otherwise the "id"/"name" values as the source
reads them with .get (with `none` also standing for a falsy value, since the
source tests truthiness), and the "genres" value (`none` when it is not a
list, in which case the source substitutes an empty list). -/
inductive RawArtistRec where
  | invalid : RawArtistRec
  | rcd (aid : Option String) (aname : Option String)
        (genres : Option (List String)) : RawArtistRec
  deriving DecidableEq, Repr

/-- One row of the artist/genre DataFrame. -/
structure ArtistRow where
  artist_id : String
  artist_name : String
  genres : List String
  deriving DecidableEq, Repr

/-- Per-artist validation of _process_artist_batch: skip falsy/non-dict
elements and elements whose id or name is missing or falsy; a non-list
genres value becomes the empty list. -/
def processArtist : RawArtistRec → Option ArtistRow
  | .invalid => none
  | .rcd aid aname genres =>
    match aid, aname with
    | some i, some n =>
      if i ≠ "" ∧ n ≠ "" then
        some { artist_id := i, artist_name := n, genres := genres.getD [] }
      else none
    | _, _ => none

/-- _process_artist_batch: an empty batch yields no results; a failed or
invalid remote call (`none`) is caught and yields no results; otherwise the
response's artist records are validated one by one. -/
def processArtistBatch (call : List String → Option (List RawArtistRec))
    (batch : List String) : List ArtistRow :=
  if batch.isEmpty then []
  else
    match call batch with
    | none => []
    | some recs => recs.filterMap processArtist

/-- pull_artist_and_genre: de-duplicate the artist ids, split them into
chunks of 50, submit one call per chunk to the worker pool, and extend the
accumulator with each chunk's results in completion order.  `order` is the
as_completed completion order, a permutation of the chunk indices. -/
def pullArtistRows (call : List String → Option (List RawArtistRec))
    (artistIds : List String) (order : List Nat) : List ArtistRow :=
  let cs := chunksOf 50 (uniqueFirst artistIds)
  (order.filterMap (fun i => cs[i]?)).flatMap (processArtistBatch call)

/-! ## Aggregator (process_library_data) -/

/-- A row of the combined DataFrame produced by
tracks_df.merge(artist_genre_df, on="artist_id", how="left"): the track
columns, plus the artist-side name and genres columns, which are null when
the track's artist_id matches no artist row. -/
structure CombinedRow where
  track : TrackRow
  artist_name_y : Option String
  genres : Option (List String)
  deriving DecidableEq, Repr

/-- Pandas left merge on artist_id: every track row in order, joined with
each matching artist row in order; a track with no matching artist row
yields a single row with null artist-side columns. -/
def leftMerge (tracks : List TrackRow) (artists : List ArtistRow) :
    List CombinedRow :=
  tracks.flatMap (fun t =>
    let ms := artists.filter (fun a => a.artist_id == t.artist_id)
    if ms.isEmpty then [{ track := t, artist_name_y := none, genres := none }]
    else ms.map (fun a =>
      { track := t, artist_name_y := some a.artist_name,
        genres := some a.genres }))

/-- The remote backend as the pipeline sees it: the paged playlist listing,
the paged per-playlist track listing, and the batched artist endpoint
(`none` = the call raised or returned an invalid response). -/
structure Backend where
  playlistPages : List (List PlaylistObj)
  trackPages : String → List (List RawItem)
  artistsCall : List String → Option (List RawArtistRec)

/-- get_playlists: follow the pagination to collect every playlist, then
apply the three filters. -/
def getPlaylists (bk : Backend) (userFilter : Option String)
    (collabFilter : Option Bool) (namePfx : Option String) :
    List PlaylistObj :=
  (collectPages bk.playlistPages).filter
    (playlistPasses userFilter collabFilter namePfx)

/-- pull_tracks calls _sp.playlist_tracks(playlist_id) exactly once per
playlist and never follows the next-page cursor, so it sees only the first
page of the playlist's track listing. -/
def fetchFirstTrackPage (bk : Backend) (pid : String) : List RawItem :=
  ((bk.trackPages pid).headD [])

/-- The track rows of the library: pull_tracks applied to the playlists of
get_playlists with no filters, as process_library_data does. -/
def libraryTracks (bk : Backend) : List TrackRow :=
  (pullTracks (fetchFirstTrackPage bk)
    ((getPlaylists bk none none none).map (fun p => (p.id, p.name)))).rows

/-- The artist rows of the library, for a given chunk completion order. -/
def libraryArtistRows (bk : Backend) (order : List Nat) : List ArtistRow :=
  pullArtistRows bk.artistsCall ((libraryTracks bk).map (fun t => t.artist_id))
    order

/-- The number of artist chunks the library submits to the worker pool. -/
def artistChunkCount (bk : Backend) : Nat :=
  (chunksOf 50 (uniqueFirst ((libraryTracks bk).map (fun t => t.artist_id)))).length

/-- process_library_data: playlists, then tracks, then artist/genre rows,
then the left merge on artist_id.  The genres of an artist stay in a single
list-valued column; no explode step exists in this pipeline. -/
def processLibraryData (bk : Backend) (order : List Nat) : List CombinedRow :=
  leftMerge (libraryTracks bk) (libraryArtistRows bk order)

/-! ## Adaptive rate limiter (AdaptiveRateLimiter) -/

/-- Mean of a list of rationals, as statistics.mean computes it. -/
def listMean (l : List ℚ) : ℚ := l.sum / l.length

/-- State of AdaptiveRateLimiter: the current delay, its bounds, the rolling
window of recent successful response times, and the consecutive error
counter.  Floats are modelled as rationals. -/
structure AdaptiveRateLimiter where
  current_delay : ℚ
  min_delay : ℚ
  max_delay : ℚ
  response_times : List ℚ
  error_count : Nat
  deriving DecidableEq, Repr

/-- The rolling-window push of AdaptiveRateLimiter.update: append the new
response time, then pop the oldest entry if the window exceeds 10. -/
def pushWindow (times : List ℚ) (t : ℚ) : List ℚ :=
  let w := times ++ [t]
  if w.length > 10 then w.drop 1 else w

/-- AdaptiveRateLimiter.update.  On success: push the response time into the
window; if the window has at least 5 samples with mean below 0.5, multiply
the delay by 0.9 floored at min_delay; reset the error counter.  On failure:
increment the error counter and multiply the delay by 1.5 capped at
max_delay. -/
def AdaptiveRateLimiter.update (r : AdaptiveRateLimiter) (success : Bool)
    (response_time : ℚ) : AdaptiveRateLimiter :=
  if success then
    let w := pushWindow r.response_times response_time
    let d :=
      if w.length ≥ 5 ∧ listMean w < 1 / 2 then
        max r.min_delay (r.current_delay * (9 / 10))
      else r.current_delay
    { r with response_times := w, current_delay := d, error_count := 0 }
  else
    { r with error_count := r.error_count + 1,
             current_delay := min r.max_delay (r.current_delay * (3 / 2)) }

/-- Fold a sequence of (success, response_time) outcomes through update. -/
def runUpdates (r : AdaptiveRateLimiter) (ops : List (Bool × ℚ)) :
    AdaptiveRateLimiter :=
  ops.foldl (fun s o => s.update o.1 o.2) r

/-! ## Playlist mutator (create_sample_playlist, add batching, privacy) -/

/-- Issue one remote add-call per chunk, in order.  A call whose predicate
is false models a raised exception: the failing call was issued, no later
chunk is attempted, and the `false` flag records that the error propagates
to the caller. -/
def issueCalls (ok : List String → Bool) :
    List (List String) → List (List String) × Bool
  | [] => ([], true)
  | b :: rest =>
    if ok b then
      let r := issueCalls ok rest
      (b :: r.1, r.2)
    else ([b], false)

/-- The add-tracks loop of sync_playlist_with_liked_songs: slice the ids
into chunks of 100 and issue one playlist_add_items call per chunk in
order. -/
def addTracksInBatches (ok : List String → Bool) (ids : List String) :
    List (List String) × Bool :=
  issueCalls ok (chunksOf 100 ids)

/-- create_sample_playlist: one user_playlist_create call, then a single
user_playlist_add_tracks call carrying the whole track_id list at once.
Returns the new playlist id and the list of add-calls issued. -/
def createSamplePlaylist (newPlaylistId : String) (trackIds : List String) :
    String × List (List String) :=
  (newPlaylistId, [trackIds])

/-- set_playlist_public_status: a single PUT request; on status 200 a
success message is shown, on any other status a failure message carrying
the status code is shown.  The first component is the Python return value:
the function has no return statement, so it is always None. -/
def setPlaylistPublicStatus (status_code : Nat) : Option Bool × Bool × Nat :=
  (none, status_code == 200, status_code)

/-! ## Liked-songs sync (sync_playlist_with_liked_songs, get_liked_songs) -/

/-- A remote mutation issued by the sync operation. -/
inductive MutationCall where
  | create (user_id : String) (name : String) : MutationCall
  | add (playlist_id : String) (batch : List String) : MutationCall
  deriving DecidableEq, Repr

/-- The backend as the sync operation sees it: paged track-id listings per
playlist, the paged liked-songs listing, the id a playlist-create call
returns, and whether an add-call succeeds. -/
structure SyncEnv where
  trackIdPages : String → List (List String)
  likedPages : List (List String)
  newPlaylistId : String
  addOk : List String → Bool

/-- sync_playlist_with_liked_songs: collect all source-playlist track ids
across pages, collect all liked track ids across pages, keep the source
tracks that are liked; then either create a new destination playlist
(raising ValueError when user_id or destination_playlist_name is missing)
or drop the tracks already present in the existing destination; finally add
the remaining tracks in batches of 100.  Returns the mutation calls issued
and either the destination playlist id or the propagated error. -/
def syncPlaylistWithLikedSongs (env : SyncEnv) (source_playlist_id : String)
    (destination_playlist_id : Option String)
    (destination_playlist_name : Option String) (user_id : Option String) :
    List MutationCall × Except String String :=
  let source_tracks := collectPages (env.trackIdPages source_playlist_id)
  let liked_track_ids := collectPages env.likedPages
  let tracks_to_add :=
    source_tracks.filter (fun t => liked_track_ids.contains t)
  match destination_playlist_id with
  | none =>
    match user_id, destination_playlist_name with
    | some uid, some dname =>
      let did := env.newPlaylistId
      let r := addTracksInBatches env.addOk tracks_to_add
      (MutationCall.create uid dname :: r.1.map (MutationCall.add did),
       if r.2 then Except.ok did else Except.error "add-call failed")
    | _, _ =>
      ([], Except.error
        "user_id and destination_playlist_name are required when creating a new playlist")
  | some did =>
    let existing_tracks := collectPages (env.trackIdPages did)
    let to_add :=
      tracks_to_add.filter (fun t => ¬ existing_tracks.contains t)
    let r := addTracksInBatches env.addOk to_add
    (r.1.map (MutationCall.add did),
     if r.2 then Except.ok did else Except.error "add-call failed")

/-- The track ids added by a trace of mutation calls, in order. -/
def addedIds (trace : List MutationCall) : List String :=
  (trace.filterMap (fun c =>
    match c with
    | .add _ b => some b
    | .create _ _ => none)).flatten

/-- The playlist-create calls of a trace of mutation calls. -/
def createCalls (trace : List MutationCall) : List (String × String) :=
  trace.filterMap (fun c =>
    match c with
    | .create u n => some (u, n)
    | .add _ _ => none)

/-! ## Spec-side predicates and concrete witness data -/

/-- Spec-side rejection predicate, following the spec's wording: the record
is absent/null; its item type marks it as a non-music item (episode); it
has no non-empty artist list; or any of id, name, artists[0].id,
artists[0].name is missing (a first artist that is not a dict has no id or
name to read). -/
def specDropsTrackRecord : RawItem → Prop
  | .notDict => True
  | .noTrack => True
  | .item t =>
    t.ty = some "episode"
    ∨ (match t.artists with
       | .alist (_ :: _) => False
       | _ => True)
    ∨ t.tid = none ∨ t.tname = none
    ∨ (match t.artists with
       | .alist (a :: _) =>
         (if a.is_dict then a.aid else none) = none
         ∨ (if a.is_dict then a.aname else none) = none
       | _ => True)

/-- The state invariant of the rate limiter: the delay is within its bounds
and the rolling window holds at most 10 samples. -/
def rlInv (r : AdaptiveRateLimiter) : Prop :=
  r.min_delay ≤ r.current_delay ∧ r.current_delay ≤ r.max_delay ∧
    r.response_times.length ≤ 10

/-- The concrete rate limiter used to witness C4: delay 1 within bounds
[1/10, 2], four fast samples already in the window, three recorded errors. -/
def rlC4 : AdaptiveRateLimiter :=
  { current_delay := 1, min_delay := 1 / 10, max_delay := 2,
    response_times := [1 / 10, 1 / 10, 1 / 10, 1 / 10], error_count := 3 }

/-- A concrete outcome sequence used to witness C4. -/
def opsC4 : List (Bool × ℚ) :=
  [(false, 0), (false, 0), (true, 1 / 10), (true, 3), (false, 0)]

/-- Whether every successful chunk response of the artist endpoint echoes
exactly the requested ids as valid records, in request order — the
behaviour of the real get-artists-by-id endpoint and of the spec's fake
backend. -/
def echoesChunks (call : List String → Option (List RawArtistRec))
    (cs : List (List String)) : Bool :=
  cs.all (fun c =>
    match call c with
    | none => true
    | some recs =>
      ((recs.filterMap processArtist).map (fun a => a.artist_id)) == c)

/-- A well-formed raw playlist item, used by the concrete examples. -/
def mkGoodItem (aid aname tid tname : String) : RawItem :=
  .item { ty := some "track",
          artists := .alist [{ is_dict := true, aid := some aid,
                               aname := some aname }],
          tid := some tid, tname := some tname }

/-- An artist response record echoing one requested id, used by the
concrete example backends. -/
def mkEchoRec (genres : List String) (i : String) : RawArtistRec :=
  .rcd (some i) (some (String.append "N" i)) (some genres)

/-- Backend of the C1 example: one playlist with one track whose artist has
the two genres rock and pop. -/
def bkC1 : Backend :=
  { playlistPages :=
      [[{ id := "p1", name := "P1", owner_display_name := "me",
          collaborative := false }]],
    trackPages := fun pid =>
      if pid == "p1" then [[mkGoodItem "a1" "ArtistA" "t1" "Song"]] else [],
    artistsCall := fun c =>
      if c == ["a1"] then
        some [.rcd (some "a1") (some "ArtistA") (some ["rock", "pop"])]
      else none }

/-- Backend of the C2 example: the playlist's track listing is split into
two pages holding one valid item each. -/
def bkC2 : Backend :=
  { playlistPages :=
      [[{ id := "p1", name := "P1", owner_display_name := "me",
          collaborative := false }]],
    trackPages := fun pid =>
      if pid == "p1" then
        [[mkGoodItem "a1" "A" "t1" "S1"], [mkGoodItem "a2" "B" "t2" "S2"]]
      else [],
    artistsCall := fun _ => none }

/-- Playlist listing of the C6 example. -/
def plsC6 : List (String × String) := [("p1", "P1"), ("p2", "P2")]

/-- Item fetch of the C6 example: every item of playlist p2 is rejected by
the normalizer (an episode, a non-dict record, and a track with an empty
artist list). -/
def fetchC6 : String → List RawItem := fun pid =>
  if pid == "p2" then
    [.item { ty := some "episode",
             artists := .alist [{ is_dict := true, aid := some "a9",
                                  aname := some "N" }],
             tid := some "e1", tname := some "Ep" },
     .notDict,
     .item { ty := some "track", artists := .alist [],
             tid := some "x1", tname := some "X" }]
  else [mkGoodItem "a1" "A" "t1" "S1"]

/-- Sixty distinct artist ids, used by the C5 witness; they split into two
chunks of 50 and 10. -/
def idsC5 : List String :=
  (List.range 60).map (fun n => String.append "a" (toString n))

/-- Artist endpoint of the C5 witness: the chunk starting at a0 succeeds
and echoes its ids; every other chunk fails. -/
def callC5 : List String → Option (List RawArtistRec) := fun c =>
  if c.head? == some "a0" then some (c.map (mkEchoRec [])) else none

/-- Sync environment of the C8 and C10 witnesses. -/
def envC8 : SyncEnv :=
  { trackIdPages := fun p =>
      if p == "src" then [["t1", "t2"], ["t3", "t4"]]
      else if p == "dst" then [["t1"]]
      else [],
    likedPages := [["t1", "t3"], ["t9"]],
    newPlaylistId := "newpl",
    addOk := fun _ => true }

/-! ## General lemmas -/

theorem perm_flatten {α : Type} {l₁ l₂ : List (List α)} (h : l₁.Perm l₂) :
    l₁.flatten.Perm l₂.flatten := by
  induction h with
  | nil => exact .rfl
  | cons x _ ih => simpa using ih.append_left x
  | swap x y l =>
    simp only [List.flatten_cons, ← List.append_assoc]
    exact (List.perm_append_comm).append_right l.flatten
  | trans _ _ ih₁ ih₂ => exact ih₁.trans ih₂

theorem perm_flatMap {α β : Type} (f : α → List β) {l₁ l₂ : List α}
    (h : l₁.Perm l₂) : (l₁.flatMap f).Perm (l₂.flatMap f) := by
  simp only [List.flatMap_def]
  exact perm_flatten (h.map f)

theorem chunksGo_flatten (m : Nat) :
    ∀ (fuel : Nat) (l : List String), l.length ≤ fuel →
      (chunksGo fuel (m + 1) l).flatten = l := by
  intro fuel
  induction fuel with
  | zero =>
    intro l h
    cases l with
    | nil => simp [chunksGo]
    | cons x xs => simp at h
  | succ f ih =>
    intro l h
    cases l with
    | nil => simp [chunksGo]
    | cons x xs =>
      simp only [chunksGo, List.flatten_cons]
      rw [ih (xs.drop m) (by simp only [List.length_drop]; simp at h; omega)]
      simp [List.cons_append, List.take_append_drop]

theorem flatten_chunksOf (n : Nat) (l : List String) (hn : 0 < n) :
    (chunksOf n l).flatten = l := by
  obtain ⟨m, rfl⟩ : ∃ m, n = m + 1 := ⟨n - 1, by omega⟩
  exact chunksGo_flatten m l.length l le_rfl

theorem chunksGo_mem {n : Nat} :
    ∀ (fuel : Nat) (l c : List String), c ∈ chunksGo fuel n l →
      c.length ≤ n ∧ c ≠ [] := by
  intro fuel
  induction fuel with
  | zero =>
    intro l c hc
    cases l with
    | nil => simp [chunksGo] at hc
    | cons x xs => cases n <;> simp [chunksGo] at hc
  | succ f ih =>
    intro l c hc
    cases l with
    | nil => simp [chunksGo] at hc
    | cons x xs =>
      cases n with
      | zero => simp [chunksGo] at hc
      | succ m =>
        simp only [chunksGo, List.mem_cons] at hc
        rcases hc with h | h
        · subst h
          refine ⟨?_, by simp⟩
          have := List.length_take_le m xs
          simp only [List.length_cons]
          omega
        · exact ih _ _ h

theorem length_le_of_mem_chunksOf {n : Nat} {l c : List String}
    (hc : c ∈ chunksOf n l) : c.length ≤ n :=
  (chunksGo_mem _ _ _ hc).1

theorem ne_nil_of_mem_chunksOf {n : Nat} {l c : List String}
    (hc : c ∈ chunksOf n l) : c ≠ [] :=
  (chunksGo_mem _ _ _ hc).2

theorem chunksGo_length (m : Nat) :
    ∀ (fuel : Nat) (l : List String), l.length ≤ fuel →
      (chunksGo fuel (m + 1) l).length = (l.length + m) / (m + 1) := by
  intro fuel
  induction fuel with
  | zero =>
    intro l h
    cases l with
    | nil =>
      simp only [chunksGo, List.length_nil, Nat.zero_add]
      exact (Nat.div_eq_of_lt (by omega)).symm
    | cons x xs => simp at h
  | succ f ih =>
    intro l h
    cases l with
    | nil =>
      simp only [chunksGo, List.length_nil, Nat.zero_add]
      exact (Nat.div_eq_of_lt (by omega)).symm
    | cons x xs =>
      simp only [chunksGo, List.length_cons]
      rw [ih (xs.drop m) (by simp only [List.length_drop]; simp at h; omega)]
      simp only [List.length_drop]
      rcases Nat.lt_or_ge xs.length m with hlt | hge
      · have h1 : xs.length - m = 0 := by omega
        rw [h1]
        have h2 : (0 + m) / (m + 1) = 0 := Nat.div_eq_of_lt (by omega)
        have h3 : (xs.length + 1 + m) / (m + 1) = 1 := by
          apply Nat.div_eq_of_lt_le <;> omega
        omega
      · have h1 : xs.length - m + m = xs.length := by omega
        have h2 : xs.length + 1 + m = xs.length + (m + 1) := by omega
        rw [h1, h2, Nat.add_div_right _ (Nat.succ_pos m)]

theorem length_chunksOf (n : Nat) (l : List String) (hn : 0 < n) :
    (chunksOf n l).length = (l.length + (n - 1)) / n := by
  obtain ⟨m, rfl⟩ : ∃ m, n = m + 1 := ⟨n - 1, by omega⟩
  simpa using chunksGo_length m l.length l le_rfl

theorem uniqueFirst_nodup : ∀ l : List String, (uniqueFirst l).Nodup := by
  intro l
  induction l with
  | nil => simp [uniqueFirst]
  | cons x xs ih =>
    rw [uniqueFirst]
    refine List.Nodup.cons ?_ (ih.filter _)
    intro hmem
    have := List.of_mem_filter hmem
    simp at this

theorem mem_uniqueFirst (x : String) :
    ∀ l : List String, x ∈ uniqueFirst l ↔ x ∈ l := by
  intro l
  induction l with
  | nil => simp [uniqueFirst]
  | cons y ys ih =>
    rw [uniqueFirst]
    by_cases hxy : x = y
    · subst hxy; simp
    · simp only [List.mem_cons, hxy, false_or]
      rw [List.mem_filter]
      simp [hxy, ih]

theorem filter_eq_find_of_nodup {β : Type} (key : β → String)
    (l : List β) (hnd : (l.map key).Nodup) (x : String) :
    l.filter (fun a => key a == x) =
      (l.find? (fun a => key a == x)).toList := by
  induction l with
  | nil => simp
  | cons a as ih =>
    simp only [List.map_cons, List.nodup_cons] at hnd
    by_cases hax : key a = x
    · have hb : (key a == x) = true := by simp [hax]
      simp only [List.filter_cons, List.find?_cons, hb, if_pos, cond_true]
      have : as.filter (fun b => key b == x) = [] := by
        apply List.filter_eq_nil_iff.mpr
        intro b hbmem
        simp only [beq_iff_eq]
        intro hbx
        exact hnd.1 (by rw [hax, ← hbx]; exact List.mem_map_of_mem key hbmem)
      simp [this]
    · have hb : (key a == x) = false := by simp [hax]
      simp only [List.filter_cons, List.find?_cons, hb, cond_false, Bool.false_eq_true,
        if_neg, not_false_eq_true]
      exact ih hnd.2

/-- Under unique artist ids, the left merge attaches to every track row the
single matching artist row (or nulls), one output row per track row. -/
theorem leftMerge_eq_find (tracks : List TrackRow) (artists : List ArtistRow)
    (hnd : (artists.map (fun a => a.artist_id)).Nodup) :
    leftMerge tracks artists = tracks.map (fun t =>
      match artists.find? (fun a => a.artist_id == t.artist_id) with
      | some a =>
        { track := t, artist_name_y := some a.artist_name,
          genres := some a.genres }
      | none => { track := t, artist_name_y := none, genres := none }) := by
  induction tracks with
  | nil => simp [leftMerge]
  | cons t ts ih =>
    simp only [leftMerge, List.flatMap_cons, List.map_cons] at *
    rw [filter_eq_find_of_nodup (fun a => a.artist_id) artists hnd t.artist_id]
    cases hf : artists.find? (fun a => a.artist_id == t.artist_id) with
    | none => simpa [Option.toList] using ih
    | some a => simpa [Option.toList] using ih

theorem leftMerge_perm (tracks : List TrackRow) {a₁ a₂ : List ArtistRow}
    (h : a₁.Perm a₂) : (leftMerge tracks a₁).Perm (leftMerge tracks a₂) := by
  unfold leftMerge
  apply List.Perm.flatMap_left
  intro t _
  have hf := h.filter (fun a => a.artist_id == t.artist_id)
  by_cases he : (a₁.filter (fun a => a.artist_id == t.artist_id)).isEmpty
  · have he₂ : (a₂.filter (fun a => a.artist_id == t.artist_id)).isEmpty := by
      rw [List.isEmpty_iff] at he ⊢
      exact ((he ▸ hf).symm).eq_nil
    simp only [he, he₂, if_pos]
    exact .rfl
  · have he₂ : ¬ (a₂.filter (fun a => a.artist_id == t.artist_id)).isEmpty := by
      rw [List.isEmpty_iff] at he ⊢
      intro hnil
      exact he ((hnil ▸ hf).eq_nil)
    simp only [he, he₂, if_neg, Bool.false_eq_true, not_false_eq_true]
    exact hf.map _

/-! ## Lemmas about the add-call loop -/

theorem issueCalls_eq (ok : List String → Bool) :
    ∀ bs : List (List String),
      issueCalls ok bs =
        (bs.takeWhile ok ++ (bs.dropWhile ok).take 1,
         (bs.dropWhile ok).isEmpty) := by
  intro bs
  induction bs with
  | nil => simp [issueCalls]
  | cons b rest ih =>
    by_cases hb : ok b
    · simp [issueCalls, hb, List.takeWhile_cons, List.dropWhile_cons, ih]
    · simp [issueCalls, hb, List.takeWhile_cons, List.dropWhile_cons]

theorem issueCalls_all_ok (ok : List String → Bool)
    (bs : List (List String)) (h : ∀ b ∈ bs, ok b = true) :
    issueCalls ok bs = (bs, true) := by
  rw [issueCalls_eq]
  rw [List.takeWhile_eq_self_iff.mpr h, List.dropWhile_eq_nil_iff.mpr h]
  simp

/-! ## Lemmas about the rate limiter -/

theorem pushWindow_length_le {w : List ℚ} (t : ℚ) (h : w.length ≤ 10) :
    (pushWindow w t).length ≤ 10 := by
  unfold pushWindow
  by_cases hlen : (w ++ [t]).length > 10
  · simp only [hlen, if_pos]
    simp at hlen ⊢
    omega
  · simp only [hlen, if_neg, not_false_eq_true]
    omega

theorem update_min_max (r : AdaptiveRateLimiter) (s : Bool) (t : ℚ) :
    (r.update s t).min_delay = r.min_delay ∧
      (r.update s t).max_delay = r.max_delay := by
  unfold AdaptiveRateLimiter.update
  by_cases hs : s <;> simp [hs]

theorem update_preserves_inv {r : AdaptiveRateLimiter}
    (hmin : 0 < r.min_delay) (hr : rlInv r) (s : Bool) (t : ℚ) :
    rlInv (r.update s t) := by
  obtain ⟨h1, h2, h3⟩ := hr
  have hd0 : (0 : ℚ) ≤ r.current_delay := le_of_lt (lt_of_lt_of_le hmin h1)
  unfold AdaptiveRateLimiter.update
  by_cases hs : s
  · simp only [hs, if_pos]
    refine ⟨?_, ?_, pushWindow_length_le t h3⟩
    · by_cases hc : (pushWindow r.response_times t).length ≥ 5 ∧
          listMean (pushWindow r.response_times t) < 1 / 2
      · simp only [hc, if_pos]
        exact le_max_left _ _
      · simp only [hc, if_neg, not_false_eq_true]
        exact h1
    · by_cases hc : (pushWindow r.response_times t).length ≥ 5 ∧
          listMean (pushWindow r.response_times t) < 1 / 2
      · simp only [hc, if_pos]
        apply max_le (le_trans h1 h2)
        calc r.current_delay * (9 / 10) ≤ r.current_delay := by
              apply mul_le_of_le_one_right hd0
              norm_num
          _ ≤ r.max_delay := h2
      · simp only [hc, if_neg, not_false_eq_true]
        exact h2
  · simp only [hs, if_neg, Bool.false_eq_true, not_false_eq_true]
    refine ⟨?_, min_le_left _ _, h3⟩
    apply le_min (le_trans h1 h2)
    calc r.min_delay ≤ r.current_delay := h1
      _ ≤ r.current_delay * (3 / 2) := by
          apply le_mul_of_one_le_right hd0
          norm_num

theorem runUpdates_min_max (r : AdaptiveRateLimiter) (ops : List (Bool × ℚ)) :
    (runUpdates r ops).min_delay = r.min_delay ∧
      (runUpdates r ops).max_delay = r.max_delay := by
  induction ops generalizing r with
  | nil => exact ⟨rfl, rfl⟩
  | cons o os ih =>
    rw [runUpdates, List.foldl_cons]
    have h := update_min_max r o.1 o.2
    have := ih (r.update o.1 o.2)
    rw [runUpdates] at this
    exact ⟨this.1.trans h.1, this.2.trans h.2⟩

theorem runUpdates_preserves_inv {r : AdaptiveRateLimiter}
    (hmin : 0 < r.min_delay) (hr : rlInv r) (ops : List (Bool × ℚ)) :
    rlInv (runUpdates r ops) := by
  induction ops generalizing r with
  | nil => exact hr
  | cons o os ih =>
    rw [runUpdates, List.foldl_cons]
    have h1 := update_preserves_inv hmin hr o.1 o.2
    have h2 := (update_min_max r o.1 o.2).1
    have := ih (r := r.update o.1 o.2) (h2 ▸ hmin) h1
    rwa [runUpdates] at this

/-! ## Claim C4 -/

/-- C4: for any sequence of update calls the current delay stays within
[min_delay, max_delay] and the rolling window within 10 samples; a failure
multiplies the delay by 1.5 capped at max_delay (a non-strict increase) and
increments the error counter; a success whose pushed window holds at least
5 samples with mean below the 0.5 threshold multiplies the delay by 0.9
floored at min_delay and resets the error counter to 0. -/
theorem rateLimiter_bounds_and_adaptation (r : AdaptiveRateLimiter)
    (ops : List (Bool × ℚ)) (t : ℚ)
    (hmin : 0 < r.min_delay)
    (h1 : r.min_delay ≤ r.current_delay)
    (h2 : r.current_delay ≤ r.max_delay)
    (h3 : r.response_times.length ≤ 10) :
    (r.min_delay ≤ (runUpdates r ops).current_delay ∧
     (runUpdates r ops).current_delay ≤ r.max_delay ∧
     (runUpdates r ops).response_times.length ≤ 10)
    ∧ ((r.update false t).current_delay =
         min r.max_delay (r.current_delay * (3 / 2)) ∧
       r.current_delay ≤ (r.update false t).current_delay ∧
       (r.update false t).current_delay ≤ r.max_delay ∧
       (r.update false t).error_count = r.error_count + 1)
    ∧ ((pushWindow r.response_times t).length ≥ 5 →
       listMean (pushWindow r.response_times t) < 1 / 2 →
       ((r.update true t).current_delay =
          max r.min_delay (r.current_delay * (9 / 10)) ∧
        (r.update true t).current_delay ≤ r.current_delay ∧
        (r.update true t).error_count = 0)) := by
  have hd0 : (0 : ℚ) ≤ r.current_delay := le_of_lt (lt_of_lt_of_le hmin h1)
  refine ⟨?_, ?_, ?_⟩
  · have hinv := runUpdates_preserves_inv hmin ⟨h1, h2, h3⟩ ops
    have hmm := runUpdates_min_max r ops
    obtain ⟨i1, i2, i3⟩ := hinv
    exact ⟨hmm.1 ▸ i1, hmm.2 ▸ i2, i3⟩
  · refine ⟨?_, ?_, ?_, ?_⟩
    · unfold AdaptiveRateLimiter.update
      simp
    · unfold AdaptiveRateLimiter.update
      simp only [Bool.false_eq_true, if_neg, not_false_eq_true]
      apply le_min h2
      apply le_mul_of_one_le_right hd0
      norm_num
    · unfold AdaptiveRateLimiter.update
      simp only [Bool.false_eq_true, if_neg, not_false_eq_true]
      exact min_le_left _ _
    · unfold AdaptiveRateLimiter.update
      simp
  · intro hc1 hc2
    have he : (r.update true t).current_delay =
        max r.min_delay (r.current_delay * (9 / 10)) := by
      unfold AdaptiveRateLimiter.update
      simp [hc1, hc2]
      intro h
      rw [one_div] at hc2
      exact absurd hc2 (not_lt.mpr h)
    have hz : (r.update true t).error_count = 0 := by
      unfold AdaptiveRateLimiter.update
      simp
    refine ⟨he, ?_, hz⟩
    rw [he]
    apply max_le h1
    apply mul_le_of_le_one_right hd0
    norm_num

theorem rateLimiter_bounds_and_adaptation_witness :
    (0 < rlC4.min_delay ∧ rlC4.min_delay ≤ rlC4.current_delay ∧
     rlC4.current_delay ≤ rlC4.max_delay ∧ rlC4.response_times.length ≤ 10)
    ∧ (rlC4.min_delay ≤ (runUpdates rlC4 opsC4).current_delay ∧
       (runUpdates rlC4 opsC4).current_delay ≤ rlC4.max_delay ∧
       (runUpdates rlC4 opsC4).response_times.length ≤ 10)
    ∧ ((pushWindow rlC4.response_times (1 / 10)).length ≥ 5 ∧
       listMean (pushWindow rlC4.response_times (1 / 10)) < 1 / 2)
    ∧ ((rlC4.update true (1 / 10)).current_delay =
         max rlC4.min_delay (rlC4.current_delay * (9 / 10)) ∧
       (rlC4.update true (1 / 10)).error_count = 0)
    ∧ ((rlC4.update false (1 / 10)).current_delay =
         min rlC4.max_delay (rlC4.current_delay * (3 / 2)) ∧
       (rlC4.update false (1 / 10)).error_count = rlC4.error_count + 1) := by
  have h5 : (pushWindow rlC4.response_times (1 / 10)).length ≥ 5 := by decide
  have h6 : listMean (pushWindow rlC4.response_times (1 / 10)) < 1 / 2 := by
    norm_num [rlC4, pushWindow, listMean]
  have happ := rateLimiter_bounds_and_adaptation rlC4 opsC4 (1 / 10)
    (by norm_num [rlC4]) (by norm_num [rlC4]) (by norm_num [rlC4])
    (by decide)
  refine ⟨⟨by norm_num [rlC4], by norm_num [rlC4], by norm_num [rlC4],
    by decide⟩, happ.1, ⟨h5, h6⟩, ?_, ?_⟩
  · have := happ.2.2 h5 h6
    exact ⟨this.1, this.2.2⟩
  · exact ⟨happ.2.1.1, happ.2.1.2.2.2⟩

/-! ## Claim C6 -/

theorem normalizeItem_none_iff (i : RawItem) :
    normalizeItem i = none ↔ specDropsTrackRecord i := by
  match i with
  | .notDict => simp [normalizeItem, specDropsTrackRecord]
  | .noTrack => simp [normalizeItem, specDropsTrackRecord]
  | .item t =>
    rcases t with ⟨ty, artists, tid, tname⟩
    by_cases hep : ty = some "episode"
    · simp [normalizeItem, specDropsTrackRecord, hep]
    · have hb : (ty == some "episode") = false := by
        simp [hep]
      match artists with
      | .missing => simp [normalizeItem, specDropsTrackRecord, hb, hep]
      | .notList => simp [normalizeItem, specDropsTrackRecord, hb, hep]
      | .alist [] => simp [normalizeItem, specDropsTrackRecord, hb, hep]
      | .alist (a :: rest) =>
        match tid, tname with
        | none, _ => simp [normalizeItem, specDropsTrackRecord, hb, hep]
        | some x, none => simp [normalizeItem, specDropsTrackRecord, hb, hep]
        | some x, some y =>
          by_cases hd : a.is_dict
          · match ha1 : a.aid, ha2 : a.aname with
            | none, _ =>
              simp [normalizeItem, specDropsTrackRecord, hb, hep, hd, ha1, ha2]
            | some u, none =>
              simp [normalizeItem, specDropsTrackRecord, hb, hep, hd, ha1, ha2]
            | some u, some v =>
              simp [normalizeItem, specDropsTrackRecord, hb, hep, hd, ha1, ha2]
          · simp [normalizeItem, specDropsTrackRecord, hb, hep, hd]

theorem pullTracks_rows_playlist_mem (fetch : String → List RawItem) :
    ∀ (pls : List (String × String)) (t : TrackRow),
      t ∈ (pullTracks fetch pls).rows → t.playlist_id ∈ pls.map Prod.fst := by
  intro pls
  induction pls with
  | nil => simp [pullTracks]
  | cons p rest ih =>
    obtain ⟨qid, qname⟩ := p
    intro t ht
    rw [pullTracks] at ht
    by_cases hv : (((fetch qid).filterMap normalizeItem).isEmpty)
    · simp only [hv, if_pos] at ht
      exact List.mem_cons_of_mem _ (ih t ht)
    · simp only [hv, if_neg, Bool.false_eq_true, not_false_eq_true,
        List.mem_append] at ht
      rcases ht with h | h
      · rcases List.mem_map.mp h with ⟨r, _, hr⟩
        subst hr
        simp [tagRow]
      · exact List.mem_cons_of_mem _ (ih t h)

/-- C6: the normalizer drops a raw playlist item exactly when one of the
spec's rejection conditions holds (absent/null record, episode type, no
non-empty artist list, or missing id/name/artists[0].id/artists[0].name);
and a playlist all of whose items are dropped contributes zero rows to the
output and is recorded as skipped with a reason, rather than failing. -/
theorem normalizer_rejection_and_skip (fetch : String → List RawItem)
    (pls : List (String × String)) (pid pname : String)
    (hnd : (pls.map Prod.fst).Nodup)
    (hmem : (pid, pname) ∈ pls)
    (hdrop : ((fetch pid).all (fun it => (normalizeItem it).isNone)) = true) :
    (∀ i : RawItem, normalizeItem i = none ↔ specDropsTrackRecord i)
    ∧ (pullTracks fetch pls).rows.filter
        (fun t => t.playlist_id == pid) = []
    ∧ (pname, pid, "No valid music tracks") ∈ (pullTracks fetch pls).skipped := by
  have hvalid : ((fetch pid).filterMap normalizeItem) = [] := by
    apply List.filterMap_eq_nil_iff.mpr
    intro it hit
    have := List.all_eq_true.mp hdrop it hit
    simpa [Option.isNone_iff_eq_none] using this
  refine ⟨normalizeItem_none_iff, ?_⟩
  induction pls with
  | nil => simp at hmem
  | cons p rest ih =>
    obtain ⟨qid, qname⟩ := p
    simp only [List.map_cons, List.nodup_cons] at hnd
    rcases List.mem_cons.mp hmem with hhead | htail
    · have hq : qid = pid ∧ qname = pname := by
        have := Prod.mk.injEq .. ▸ hhead
        exact ⟨(Prod.mk.injEq _ _ _ _ ▸ hhead.symm).1, (Prod.mk.injEq _ _ _ _ ▸ hhead.symm).2⟩
      obtain ⟨h1, h2⟩ := hq
      subst h1; subst h2
      rw [pullTracks]
      simp only [hvalid, List.isEmpty_nil, if_pos]
      constructor
      · apply List.filter_eq_nil_iff.mpr
        intro t ht
        have := pullTracks_rows_playlist_mem fetch rest t ht
        simp only [beq_iff_eq]
        intro he
        exact hnd.1 (he ▸ this)
      · exact List.mem_cons_self _ _
    · have hpidrest : pid ∈ rest.map Prod.fst :=
        List.mem_map.mpr ⟨(pid, pname), htail, rfl⟩
      have hqp : qid ≠ pid := fun he => hnd.1 (he ▸ hpidrest)
      have := ih hnd.2 htail
      rw [pullTracks]
      by_cases hv : (((fetch qid).filterMap normalizeItem).isEmpty)
      · simp only [hv, if_pos]
        exact ⟨this.1, List.mem_cons_of_mem _ this.2⟩
      · simp only [hv, if_neg, Bool.false_eq_true, not_false_eq_true]
        refine ⟨?_, this.2⟩
        rw [List.filter_append, this.1, List.append_nil]
        apply List.filter_eq_nil_iff.mpr
        intro t ht
        rcases List.mem_map.mp ht with ⟨r, _, hr⟩
        subst hr
        simp [tagRow, hqp]

theorem normalizer_rejection_and_skip_witness :
    (plsC6.map Prod.fst).Nodup
    ∧ ("p2", "P2") ∈ plsC6
    ∧ (fetchC6 "p2").all (fun it => (normalizeItem it).isNone) = true
    ∧ (normalizeItem RawItem.notDict = none ↔
        specDropsTrackRecord RawItem.notDict)
    ∧ (pullTracks fetchC6 plsC6).rows.filter
        (fun t => t.playlist_id == "p2") = []
    ∧ ("P2", "p2", "No valid music tracks")
        ∈ (pullTracks fetchC6 plsC6).skipped := by
  have h := normalizer_rejection_and_skip fetchC6 plsC6 "p2" "P2"
    (by decide) (by decide) (by decide)
  exact ⟨by decide, by decide, by decide, h.1 RawItem.notDict, h.2.1, h.2.2⟩

/-! ## Claim C3 -/

/-- C3 (amended): the add-tracks loop of sync_playlist_with_liked_songs
slices its ids into consecutive chunks of at most 100 in input order (250
ids give chunk sizes 100/100/50), issues one add-call per chunk, and a
chunk failure stops all later chunks with the error propagating; but
create_sample_playlist issues one unchunked add-call carrying the whole
list (see the counterexample). -/
theorem addTracks_batching (ids : List String) (ok : List String → Bool) :
    (chunksOf 100 ids).flatten = ids
    ∧ (∀ c ∈ chunksOf 100 ids, c.length ≤ 100 ∧ c ≠ [])
    ∧ (chunksOf 100 (List.replicate 250 "t")).map List.length = [100, 100, 50]
    ∧ (addTracksInBatches ok ids).1
        = (chunksOf 100 ids).takeWhile ok
          ++ ((chunksOf 100 ids).dropWhile ok).take 1
    ∧ ((addTracksInBatches ok ids).2 = true
        ↔ ∀ c ∈ chunksOf 100 ids, ok c = true) := by
  refine ⟨flatten_chunksOf 100 ids (by norm_num),
    fun c hc => ⟨length_le_of_mem_chunksOf hc, ne_nil_of_mem_chunksOf hc⟩,
    by set_option maxRecDepth 20000 in decide, ?_, ?_⟩
  · rw [addTracksInBatches, issueCalls_eq]
  · rw [addTracksInBatches, issueCalls_eq]
    simp [List.isEmpty_iff, List.dropWhile_eq_nil_iff]

/-- C3 counterexample: create_sample_playlist, given 250 track ids, issues
exactly one add-call carrying all 250 ids, not three chunked calls of at
most 100. -/
theorem createSamplePlaylist_single_unchunked_call :
    (createSamplePlaylist "pl" (List.replicate 250 "t")).2
        = [List.replicate 250 "t"]
    ∧ ∃ c ∈ (createSamplePlaylist "pl" (List.replicate 250 "t")).2,
        100 < c.length := by
  refine ⟨rfl, List.replicate 250 "t", ?_, ?_⟩
  · show List.replicate 250 "t" ∈ [List.replicate 250 "t"]
    exact List.mem_singleton_self _
  · rw [List.length_replicate]
    norm_num

/-! ## Claim C7 -/

/-- C7 (code bug): set_playlist_public_status issues its single call and
reports the status code on failure, but the Python function returns None on
every path — never the boolean its docstring and the spec promise — and it
treats any status other than 200 (including the 2xx code 204) as a
failure. -/
theorem setPlaylistPublicStatus_returns_none :
    (setPlaylistPublicStatus 200).1 = none
    ∧ (setPlaylistPublicStatus 204).1 = none
    ∧ (setPlaylistPublicStatus 204).2.1 = false
    ∧ (setPlaylistPublicStatus 404).2.1 = false
    ∧ (setPlaylistPublicStatus 404).2.2 = 404 := by decide

/-! ## Claim C2 -/

theorem collectPages_eq_flatten {α : Type} (pages : List (List α)) :
    collectPages pages = pages.flatten := by
  induction pages with
  | nil => rfl
  | cons p ps ih => simp [collectPages, ih]

/-- C2 (amended): the pagination loop yields exactly the items of every
page in original order (so all N items for any number of pages P ≥ 1), and
get_playlists consumes every playlist page before filtering; but
pull_tracks calls the track endpoint once per playlist and reads only the
first page of its track listing. -/
theorem pagination_complete_but_tracks_first_page (bk : Backend)
    (pages : List (List String)) (uf : Option String) (cf : Option Bool)
    (pfx : Option String) (pid pname : String) :
    (collectPages pages = pages.flatten
      ∧ (collectPages pages).length = (pages.map List.length).sum)
    ∧ getPlaylists bk uf cf pfx
        = bk.playlistPages.flatten.filter (playlistPasses uf cf pfx)
    ∧ (pullTracks (fetchFirstTrackPage bk) [(pid, pname)]).rows
        = (((bk.trackPages pid).headD []).filterMap normalizeItem).map
            (tagRow pid) := by
  refine ⟨⟨collectPages_eq_flatten pages, ?_⟩, ?_, ?_⟩
  · rw [collectPages_eq_flatten]
    simp
  · rw [getPlaylists, collectPages_eq_flatten]
  · rw [pullTracks]
    by_cases hv : ((fetchFirstTrackPage bk pid).filterMap
        normalizeItem).isEmpty
    · simp only [hv, if_pos]
      have hnil : ((bk.trackPages pid).headD []).filterMap normalizeItem = [] :=
        List.isEmpty_iff.mp hv
      rw [hnil]
      rfl
    · simp only [hv, if_neg, Bool.false_eq_true, not_false_eq_true]
      rw [show (pullTracks (fetchFirstTrackPage bk) []).rows = [] from rfl,
        List.append_nil]
      rfl

/-- C2 counterexample: playlist p1 of bkC2 has two valid items across its
two pages, yet pull_tracks produces a single row — the second page is never
fetched. -/
theorem pullTracks_misses_later_pages :
    ((collectPages (bkC2.trackPages "p1")).filterMap normalizeItem).length = 2
    ∧ (pullTracks (fetchFirstTrackPage bkC2) [("p1", "P1")]).rows.length = 1 := by
  decide

/-! ## Claim C1 -/

/-- C1 (amended): the combined result of process_library_data is the left
join of Track rows with Artist rows on artist_id with the genre set kept
whole in a single list-valued column — no explode: when artist ids are
unique among the fetched artist rows, every track produces exactly one
combined row, carrying its artist's entire genre list, or null genre
columns when no artist row matches; the row count equals the track
count. -/
theorem processLibraryData_left_join (bk : Backend) (order : List Nat)
    (hnd : ((libraryArtistRows bk order).map (fun a => a.artist_id)).Nodup) :
    processLibraryData bk order
      = (libraryTracks bk).map (fun t =>
          match (libraryArtistRows bk order).find?
              (fun a => a.artist_id == t.artist_id) with
          | some a => { track := t, artist_name_y := some a.artist_name,
                        genres := some a.genres }
          | none => { track := t, artist_name_y := none, genres := none })
    ∧ (processLibraryData bk order).length = (libraryTracks bk).length := by
  have h := leftMerge_eq_find (libraryTracks bk) (libraryArtistRows bk order)
    hnd
  refine ⟨h, ?_⟩
  rw [processLibraryData, h, List.length_map]

theorem processLibraryData_left_join_witness :
    ((libraryArtistRows bkC1 [0]).map (fun a => a.artist_id)).Nodup
    ∧ (processLibraryData bkC1 [0]).length = (libraryTracks bkC1).length :=
  ⟨by decide, (processLibraryData_left_join bkC1 [0] (by decide)).2⟩

/-- C1 counterexample: in bkC1 the single track's artist carries two genres,
yet the combined result holds exactly one row for that track, with both
genres in one list-valued field — not one row per genre as the claim
requires. -/
theorem processLibraryData_no_genre_explosion :
    (libraryArtistRows bkC1 [0]).map (fun a => a.genres) = [["rock", "pop"]]
    ∧ (processLibraryData bkC1 [0]).length = 1
    ∧ (processLibraryData bkC1 [0]).map (fun r => r.genres)
        = [some ["rock", "pop"]] := by decide

/-! ## Claim C5 -/

theorem filterMap_getElem_range {α : Type} (l : List α) :
    (List.range l.length).filterMap (fun i => l[i]?) = l := by
  induction l with
  | nil => rfl
  | cons x xs ih =>
    rw [List.length_cons, List.range_succ_eq_map, List.filterMap_cons]
    simp only [List.getElem?_cons_zero, List.filterMap_map]
    have hfun : ((fun i => (x :: xs)[i]?) ∘ Nat.succ) = (fun i => xs[i]?) := by
      funext i
      simp
    rw [hfun, ih]

theorem flatMap_congr_mem {α β : Type} {l : List α} {f g : α → List β}
    (h : ∀ a ∈ l, f a = g a) : l.flatMap f = l.flatMap g := by
  induction l with
  | nil => rfl
  | cons x xs ih =>
    rw [List.flatMap_cons, List.flatMap_cons, h x (List.mem_cons_self x xs),
      ih (fun a ha => h a (List.mem_cons_of_mem x ha))]

theorem flatMap_if_filter (p : List String → Bool) (cs : List (List String)) :
    cs.flatMap (fun c => if p c then c else [])
      = (cs.filter p).flatten := by
  induction cs with
  | nil => rfl
  | cons c rest ih =>
    rw [List.flatMap_cons, List.filter_cons]
    by_cases hc : p c
    · simp only [hc, if_pos, List.flatten_cons, ih]
    · simp only [hc, if_neg, Bool.false_eq_true, not_false_eq_true,
        List.nil_append, ih]

theorem processArtistBatch_ids {call : List String → Option (List RawArtistRec)}
    {cs : List (List String)} (hecho : echoesChunks call cs = true)
    (hne : ∀ c ∈ cs, c ≠ []) :
    ∀ c ∈ cs, (processArtistBatch call c).map (fun a => a.artist_id)
      = if (call c).isSome then c else [] := by
  intro c hc
  have hech := List.all_eq_true.mp hecho c hc
  rw [processArtistBatch]
  have hemp : c.isEmpty = false := by
    rw [List.isEmpty_eq_false_iff_exists_mem]
    match c, hne c hc with
    | x :: xs, _ => exact ⟨x, List.mem_cons_self x xs⟩
  rw [hemp]
  simp only [Bool.false_eq_true, if_neg, not_false_eq_true]
  cases hcall : call c with
  | none => simp [hcall]
  | some recs =>
    rw [hcall] at hech
    simp only at hech
    simp only [Option.isSome_some, if_pos]
    exact beq_iff_eq.mp hech

/-- C5: the artist batch fetcher de-duplicates the input ids preserving
first occurrence, issues exactly ceil(M/50) chunked calls of at most 50 ids
each with every unique id in exactly one chunk, and — when successful calls
echo their requested ids — the returned artist ids are, up to the
completion order of the parallel workers, exactly the de-duplicated input
minus the ids of failed chunks, which contribute nothing without aborting
the rest. -/
theorem artistBatch_chunking (call : List String → Option (List RawArtistRec))
    (ids : List String) (order : List Nat)
    (hperm : order.Perm (List.range (chunksOf 50 (uniqueFirst ids)).length))
    (hecho : echoesChunks call (chunksOf 50 (uniqueFirst ids)) = true) :
    (chunksOf 50 (uniqueFirst ids)).length
        = ((uniqueFirst ids).length + 49) / 50
    ∧ (∀ c ∈ chunksOf 50 (uniqueFirst ids), c.length ≤ 50 ∧ c ≠ [])
    ∧ (chunksOf 50 (uniqueFirst ids)).flatten = uniqueFirst ids
    ∧ (uniqueFirst ids).Nodup
    ∧ ((pullArtistRows call ids order).map (fun a => a.artist_id)).Perm
        (((chunksOf 50 (uniqueFirst ids)).filter
            (fun c => (call c).isSome)).flatten)
    ∧ (∀ x, x ∈ (pullArtistRows call ids order).map (fun a => a.artist_id)
        ↔ ∃ c ∈ chunksOf 50 (uniqueFirst ids), (call c).isSome ∧ x ∈ c) := by
  have hA : (order.filterMap
      (fun i => (chunksOf 50 (uniqueFirst ids))[i]?)).Perm
      (chunksOf 50 (uniqueFirst ids)) := by
    have := hperm.filterMap (fun i => (chunksOf 50 (uniqueFirst ids))[i]?)
    rwa [filterMap_getElem_range] at this
  have hids : (pullArtistRows call ids order).map (fun a => a.artist_id)
      = (order.filterMap (fun i => (chunksOf 50 (uniqueFirst ids))[i]?)).flatMap
          (fun c => if (call c).isSome then c else []) := by
    rw [pullArtistRows, List.map_flatMap]
    apply flatMap_congr_mem
    intro c hcA
    exact processArtistBatch_ids hecho
      (fun c hc => ne_nil_of_mem_chunksOf hc) c (hA.mem_iff.mp hcA)
  have hPerm : ((pullArtistRows call ids order).map
      (fun a => a.artist_id)).Perm
      (((chunksOf 50 (uniqueFirst ids)).filter
          (fun c => (call c).isSome)).flatten) := by
    rw [hids, ← flatMap_if_filter]
    exact perm_flatMap _ hA
  refine ⟨length_chunksOf 50 (uniqueFirst ids) (by norm_num),
    fun c hc => ⟨length_le_of_mem_chunksOf hc, ne_nil_of_mem_chunksOf hc⟩,
    flatten_chunksOf 50 (uniqueFirst ids) (by norm_num),
    uniqueFirst_nodup ids, hPerm, ?_⟩
  intro x
  rw [hPerm.mem_iff, List.mem_flatten]
  constructor
  · rintro ⟨c, hc, hx⟩
    have := List.mem_filter.mp hc
    exact ⟨c, this.1, by simpa using this.2, hx⟩
  · rintro ⟨c, hc, hsome, hx⟩
    exact ⟨c, List.mem_filter.mpr ⟨hc, by simpa using hsome⟩, hx⟩

theorem artistBatch_chunking_witness :
    ([1, 0].Perm (List.range (chunksOf 50 (uniqueFirst idsC5)).length))
    ∧ echoesChunks callC5 (chunksOf 50 (uniqueFirst idsC5)) = true
    ∧ (chunksOf 50 (uniqueFirst idsC5)).length
        = ((uniqueFirst idsC5).length + 49) / 50
    ∧ ((pullArtistRows callC5 idsC5 [1, 0]).map
        (fun a => a.artist_id)).Perm
        (((chunksOf 50 (uniqueFirst idsC5)).filter
            (fun c => (callC5 c).isSome)).flatten) := by
  have h := artistBatch_chunking callC5 idsC5 [1, 0]
    (by set_option maxRecDepth 20000 in decide)
    (by set_option maxRecDepth 20000 in decide)
  exact ⟨by set_option maxRecDepth 20000 in decide,
    by set_option maxRecDepth 20000 in decide, h.1, h.2.2.2.2.1⟩

/-! ## Claim C9 -/

/-- C9: aggregating twice against the same backend yields the same rows up
to order — for any two completion orders of the artist chunks (both
permutations of the submitted chunk indices), the combined results are
permutations of each other, hence equal as row sets. -/
theorem aggregation_idempotent (bk : Backend) (o₁ o₂ : List Nat)
    (h₁ : o₁.Perm (List.range (artistChunkCount bk)))
    (h₂ : o₂.Perm (List.range (artistChunkCount bk))) :
    (processLibraryData bk o₁).Perm (processLibraryData bk o₂)
    ∧ ∀ r, r ∈ processLibraryData bk o₁ ↔ r ∈ processLibraryData bk o₂ := by
  have ho : o₁.Perm o₂ := h₁.trans h₂.symm
  have hrows : (libraryArtistRows bk o₁).Perm (libraryArtistRows bk o₂) := by
    unfold libraryArtistRows pullArtistRows
    exact perm_flatMap _ (ho.filterMap _)
  have hp := leftMerge_perm (libraryTracks bk) hrows
  exact ⟨hp, fun r => hp.mem_iff⟩

theorem aggregation_idempotent_witness :
    ([0].Perm (List.range (artistChunkCount bkC1)))
    ∧ (processLibraryData bkC1 [0]).Perm (processLibraryData bkC1 [0]) :=
  ⟨by decide, (aggregation_idempotent bkC1 [0] [0] (by decide) (by decide)).1⟩

/-! ## Claims C8 and C10 -/

theorem addedIds_map_add (did : String) (bs : List (List String)) :
    addedIds (bs.map (MutationCall.add did)) = bs.flatten := by
  induction bs with
  | nil => rfl
  | cons b rest ih =>
    rw [List.map_cons, addedIds, List.filterMap_cons]
    show (b :: List.filterMap _ (rest.map (MutationCall.add did))).flatten
      = (b :: rest).flatten
    rw [List.flatten_cons, List.flatten_cons]
    rw [addedIds] at ih
    rw [ih]

theorem createCalls_map_add (did : String) (bs : List (List String)) :
    createCalls (bs.map (MutationCall.add did)) = [] := by
  induction bs with
  | nil => rfl
  | cons b rest ih =>
    rw [List.map_cons, createCalls, List.filterMap_cons]
    show List.filterMap _ (rest.map (MutationCall.add did)) = []
    rw [createCalls] at ih
    exact ih

/-- C8: sync_playlist_with_liked_songs returns the destination playlist id
and, on an error-free backend, adds exactly the source tracks that are
liked — further excluding tracks already present in the destination when a
destination playlist id is given — and creates the destination first (then
adds every liked source track) when none is given. -/
theorem sync_adds_liked_intersection (env : SyncEnv)
    (sid did dname uid : String) (hok : env.addOk = fun _ => true) :
    ((syncPlaylistWithLikedSongs env sid (some did) none none).2
        = Except.ok did
      ∧ addedIds (syncPlaylistWithLikedSongs env sid (some did) none none).1
          = ((collectPages (env.trackIdPages sid)).filter
                (fun t => (collectPages env.likedPages).contains t)).filter
              (fun t => ¬ (collectPages (env.trackIdPages did)).contains t)
      ∧ createCalls
          (syncPlaylistWithLikedSongs env sid (some did) none none).1 = [])
    ∧ ((syncPlaylistWithLikedSongs env sid none (some dname) (some uid)).2
        = Except.ok env.newPlaylistId
      ∧ addedIds
          (syncPlaylistWithLikedSongs env sid none (some dname) (some uid)).1
          = (collectPages (env.trackIdPages sid)).filter
              (fun t => (collectPages env.likedPages).contains t)
      ∧ createCalls
          (syncPlaylistWithLikedSongs env sid none (some dname) (some uid)).1
          = [(uid, dname)]) := by
  have hall : ∀ bs : List (List String), issueCalls env.addOk bs = (bs, true) :=
    fun bs => issueCalls_all_ok env.addOk bs (fun b _ => by rw [hok])
  constructor
  · rw [syncPlaylistWithLikedSongs]
    simp only [addTracksInBatches, hall]
    refine ⟨rfl, ?_, createCalls_map_add did _⟩
    rw [addedIds_map_add, flatten_chunksOf 100 _ (by norm_num)]
  · rw [syncPlaylistWithLikedSongs]
    simp only [addTracksInBatches, hall]
    refine ⟨rfl, ?_, ?_⟩
    · rw [addedIds, List.filterMap_cons]
      simp only []
      rw [← addedIds, addedIds_map_add, flatten_chunksOf 100 _ (by norm_num)]
    · rw [createCalls, List.filterMap_cons]
      simp only []
      rw [← createCalls, createCalls_map_add]

theorem sync_adds_liked_intersection_witness :
    (envC8.addOk = fun _ => true)
    ∧ (syncPlaylistWithLikedSongs envC8 "src" (some "dst") none none).2
        = Except.ok "dst"
    ∧ addedIds
        (syncPlaylistWithLikedSongs envC8 "src" (some "dst") none none).1
        = ["t3"]
    ∧ (syncPlaylistWithLikedSongs envC8 "src" none (some "D") (some "U")).2
        = Except.ok "newpl"
    ∧ addedIds
        (syncPlaylistWithLikedSongs envC8 "src" none (some "D") (some "U")).1
        = ["t1", "t3"]
    ∧ createCalls
        (syncPlaylistWithLikedSongs envC8 "src" none (some "D") (some "U")).1
        = [("U", "D")] := by
  have h := sync_adds_liked_intersection envC8 "src" "dst" "D" "U" rfl
  exact ⟨rfl, h.1.1, h.1.2.1.trans (by decide), h.2.1,
    h.2.2.1.trans (by decide), h.2.2.2⟩

/-- C10: calling sync_playlist_with_liked_songs with no destination
playlist id and a missing user_id or destination_playlist_name raises
ValueError before any playlist is created or any add-call is issued: the
mutation trace is empty and the error propagates. -/
theorem sync_missing_args_no_mutation (env : SyncEnv) (sid : String)
    (dname uid : Option String) (h : uid = none ∨ dname = none) :
    syncPlaylistWithLikedSongs env sid none dname uid
      = ([], Except.error
          "user_id and destination_playlist_name are required when creating a new playlist") := by
  rcases h with h | h
  · subst h
    cases dname <;> rfl
  · subst h
    cases uid <;> rfl

theorem sync_missing_args_no_mutation_witness :
    ((none : Option String) = none ∨ (some "D" : Option String) = none)
    ∧ syncPlaylistWithLikedSongs envC8 "src" none (some "D") none
        = ([], Except.error
            "user_id and destination_playlist_name are required when creating a new playlist") :=
  ⟨Or.inl rfl,
    sync_missing_args_no_mutation envC8 "src" (some "D") none (Or.inl rfl)⟩

end Spooty
